import Mathlib

set_option autoImplicit false

/-!
Shallow embedding of the firecrawl fetch-or-create subsystem
(`apps/generator /src/lib/firecrawl.ts`) and of the keyword-extraction helper
(`apps/generator /src/lib/keywords.ts`) of the p6l-richard/marketing repository.

Asynchronous effects are made explicit: the stream of outcomes of the
`firecrawl.scrapeUrl` invocations, the stream of `Math.random()*1000` jitter
draws, and the database are passed in as values, and each modelled function
returns the resulting database together with a trace (number of fetch calls,
waits performed, number of upsert statements issued).
-/

/-- Shape of a JavaScript error value as inspected by `isRateLimitError`:
the fields `statusCode`, `message` and `status` may each be absent. -/
structure JsError where
  statusCode : Option Int
  message : Option String
  status : Option Int
deriving DecidableEq

/-- Helper for `jsIncludes`: does `pat` occur as a contiguous run in the list? -/
def jsIncludesAux (pat : List Char) : List Char → Bool
  | [] => pat.isEmpty
  | c :: rest => pat.isPrefixOf (c :: rest) || jsIncludesAux pat rest

/-- JavaScript `s.includes(pat)`. -/
def jsIncludes (s pat : String) : Bool :=
  jsIncludesAux pat.toList s.toList

/-- Embedding of `isRateLimitError` (firecrawl.ts lines 20-24):
`statusCode === 429, message.includes(429) with a truthy message, or status === 429`.
An absent field fails the comparison; an empty `message` string is falsy in JS,
so only a non-empty message containing "429" classifies as rate limit. -/
def isRateLimitError (e : JsError) : Bool :=
  e.statusCode == some 429 ||
  (match e.message with
   | some m => m != "" && jsIncludes m "429"
   | none => false) ||
  e.status == some 429

/-- Trace of one `retryWithExponentialBackoff` run: how many times the wrapped
function was invoked, the waits performed (in order), and the final outcome
(`Except.error` models the promise rejecting, i.e. the error being thrown). -/
structure RetryTrace (T : Type) where
  calls : Nat
  waits : List Rat
  outcome : Except JsError T

/-- Loop body of `retryWithExponentialBackoff` (firecrawl.ts lines 36-59).
`attempt` is the current 0-based attempt index and the second argument is
`maxRetries - attempt`, the number of retries still allowed.  When it is zero
the source throws the error whether or not it is rate-limit-classified
(lines 43-51 both throw), so the two throw paths are merged here.  Otherwise a
non-rate-limit error is rethrown at once, and a rate-limit error triggers a
wait of `baseDelay * 2 ^ attempt + jitter attempt` (line 54, with
`jitter attempt` standing for the `Math.random() * 1000` draw of that iteration)
followed by the next iteration. -/
def retryFrom {T : Type} (attempts : Nat → Except JsError T) (baseDelay : Rat)
    (jitter : Nat → Rat) : Nat → Nat → RetryTrace T
  | attempt, 0 =>
    match attempts attempt with
    | Except.ok v => { calls := 1, waits := [], outcome := Except.ok v }
    | Except.error e => { calls := 1, waits := [], outcome := Except.error e }
  | attempt, r + 1 =>
    match attempts attempt with
    | Except.ok v => { calls := 1, waits := [], outcome := Except.ok v }
    | Except.error e =>
      if isRateLimitError e then
        let rest := retryFrom attempts baseDelay jitter (attempt + 1) r
        { calls := rest.calls + 1,
          waits := (baseDelay * 2 ^ attempt + jitter attempt) :: rest.waits,
          outcome := rest.outcome }
      else
        { calls := 1, waits := [], outcome := Except.error e }

/-- Embedding of `retryWithExponentialBackoff` (firecrawl.ts lines 29-62).
`attempts i` is the outcome of the `i`-th invocation of the wrapped `fn`. -/
def retryWithExponentialBackoff {T : Type} (attempts : Nat → Except JsError T)
    (maxRetries : Nat) (baseDelay : Rat) (jitter : Nat → Rat) : RetryTrace T :=
  retryFrom attempts baseDelay jitter 0 maxRetries

/-- A rate-limit-shaped error (HTTP 429), used in concrete scenarios. -/
def rlError : JsError :=
  { statusCode := some 429, message := none, status := none }

/-- A permanent (non-rate-limit) error, used in concrete scenarios. -/
def permError : JsError :=
  { statusCode := some 400, message := some "bad request", status := none }

/-- A fetch that is throttled on every invocation, used in concrete scenarios. -/
def alwaysThrottled : Nat → Except JsError Nat :=
  fun _ => Except.error rlError

/-- Result of one `firecrawl.scrapeUrl` call, after the embedded metadata
object (firecrawl.ts lines 64-81).  Every field is optional in the source
type except `success`. -/
structure FirecrawlMetadata where
  sourceURL : Option String
  scrapeId : Option String
  title : Option String
  description : Option String
  language : Option String
  ogTitle : Option String
  ogDescription : Option String
  ogUrl : Option String
  ogImage : Option String
  ogSiteName : Option String
deriving DecidableEq

/-- Embedding of the `FirecrawlScrapeResult` type (firecrawl.ts lines 65-81). -/
structure FirecrawlScrapeResult where
  success : Bool
  error : Option String
  markdown : Option String
  metadata : Option FirecrawlMetadata
deriving DecidableEq

/-- JavaScript `x || d` where `x` is a string or undefined: falls back to the
default both when the value is absent and when it is the empty string. -/
def orDefault (v : Option String) (d : String) : String :=
  match v with
  | some s => if s = "" then d else s
  | none => d

/-- One row of the `firecrawlResponses` table, restricted to the columns the
embedded code reads or writes.  `updatedAt` is an abstract timestamp. -/
structure FirecrawlRow where
  sourceUrl : String
  markdown : Option String
  success : Bool
  error : Option String
  inputTerm : String
  scrapeId : String
  title : String
  description : String
  language : String
  ogTitle : String
  ogDescription : String
  ogUrl : String
  ogImage : String
  ogSiteName : String
  updatedAt : Nat
deriving DecidableEq

/-- Embedding of `db.query.firecrawlResponses.findFirst({where: eq(sourceUrl, url)})`:
the first stored row whose `sourceUrl` equals the given url. -/
def findFirstByUrl (store : List FirecrawlRow) (url : String) : Option FirecrawlRow :=
  store.find? (fun r => r.sourceUrl == url)

/-- Embedding of `db.insert(firecrawlResponses).values(row).onDuplicateKeyUpdate({set})`.
The table has a uniqueness constraint on the resource key (spec section 3 and
section 6: "a key-value upsert store with a uniqueness constraint on the
resource key"), which for `firecrawlResponses` is the `sourceUrl` the code
both inserts and queries by: if a row with the key of the new row already exists
the `set` clause is applied to it in place, otherwise the new row is appended. -/
def upsert (store : List FirecrawlRow) (row : FirecrawlRow)
    (update : FirecrawlRow → FirecrawlRow) : List FirecrawlRow :=
  if store.any (fun r => r.sourceUrl == row.sourceUrl) then
    store.map (fun r => if r.sourceUrl == row.sourceUrl then update r else r)
  else
    store ++ [row]

/-- Row inserted by the two failure paths of `getOrCreateFirecrawlResponse`
(firecrawl.ts lines 113-128 and 178-192): only `sourceUrl`, `error`,
`success` and `inputTerm` are given; the remaining columns keep their
defaults (modelled as absent markdown and empty strings). -/
def failureRow (url msg term : String) (now : Nat) : FirecrawlRow :=
  { sourceUrl := url, markdown := none, success := false, error := some msg,
    inputTerm := term, scrapeId := "", title := "", description := "",
    language := "", ogTitle := "", ogDescription := "", ogUrl := "",
    ogImage := "", ogSiteName := "", updatedAt := now }

/-- Failure upsert (both failure paths share the same `values`/`set` shape):
on duplicate key the stored row keeps its other columns and gets
`error := msg`, `success := false` and a fresh `updatedAt`. -/
def upsertFailure (store : List FirecrawlRow) (url msg term : String)
    (now : Nat) : List FirecrawlRow :=
  upsert store (failureRow url msg term now)
    (fun r => { r with error := some msg, success := false, updatedAt := now })

/-- Row inserted by the success path (firecrawl.ts lines 139-156).  Note that
the stored `sourceUrl` is `firecrawlResult.metadata?.sourceURL || args.url`,
which need not equal the requested url. -/
def successRow (res : FirecrawlScrapeResult) (url term : String)
    (now : Nat) : FirecrawlRow :=
  { sourceUrl := orDefault (res.metadata.bind (fun m => m.sourceURL)) url,
    markdown := res.markdown,
    success := res.success,
    error := none,
    inputTerm := term,
    scrapeId := orDefault (res.metadata.bind (fun m => m.scrapeId)) "",
    title := orDefault (res.metadata.bind (fun m => m.title)) "",
    description := orDefault (res.metadata.bind (fun m => m.description)) "",
    language := orDefault (res.metadata.bind (fun m => m.language)) "",
    ogTitle := orDefault (res.metadata.bind (fun m => m.ogTitle)) "",
    ogDescription := orDefault (res.metadata.bind (fun m => m.ogDescription)) "",
    ogUrl := orDefault (res.metadata.bind (fun m => m.ogUrl)) "",
    ogImage := orDefault (res.metadata.bind (fun m => m.ogImage)) "",
    ogSiteName := orDefault (res.metadata.bind (fun m => m.ogSiteName)) "",
    updatedAt := now }

/-- Success upsert (firecrawl.ts lines 139-164): on duplicate key the stored
row gets the new markdown, `success := true`, `error := null` and a fresh
`updatedAt`. -/
def upsertSuccess (store : List FirecrawlRow) (res : FirecrawlScrapeResult)
    (url term : String) (now : Nat) : List FirecrawlRow :=
  upsert store (successRow res url term now)
    (fun r => { r with markdown := res.markdown, success := true,
                       error := none, updatedAt := now })

/-- The message stored for a thrown error (firecrawl.ts line 172):
`error instanceof Error ? error.message : String(error)`. -/
def errorMessage (e : JsError) : String :=
  match e.message with
  | some m => m
  | none => "[object Object]"

/-- JavaScript truthiness of `row.markdown`: present and non-empty. -/
def truthyMarkdown (r : FirecrawlRow) : Bool :=
  match r.markdown with
  | some m => m != ""
  | none => false

/-- Truthiness of `existing?.markdown` (firecrawl.ts line 96): the cache-hit
test of `getOrCreateFirecrawlResponse`.  Note it inspects the markdown, not
the stored success flag. -/
def cacheHit (o : Option FirecrawlRow) : Bool :=
  match o with
  | some r => truthyMarkdown r
  | none => false

/-- External inputs of one `getOrCreateFirecrawlResponse` call: the outcome of
each `firecrawl.scrapeUrl` invocation, the jitter draws, and the timestamp
used for `new Date()`. -/
structure FetchEnv where
  attempts : Nat → Except JsError FirecrawlScrapeResult
  jitter : Nat → Rat
  now : Nat

/-- Result and observable trace of one `getOrCreateFirecrawlResponse` call:
the database afterwards, the value returned to the caller (`none` models the
JS `undefined`), the number of `scrapeUrl` invocations, the backoff waits,
and the number of upsert statements executed. -/
structure GocResult where
  store : List FirecrawlRow
  ret : Option FirecrawlRow
  fetchCalls : Nat
  waits : List Rat
  upserts : Nat
deriving DecidableEq

/-- The scrape-and-store part of `getOrCreateFirecrawlResponse` (firecrawl.ts
lines 101-199): run `retryWithExponentialBackoff` with maxRetries 3 and base
delay 2000; on a resolved-but-unsuccessful result store a failure record; on
a successful result store a success record; on a thrown error (including
rate-limit exhaustion) store a failure record; in every case return the row
found by re-querying the requested url.  Note `args.connectTo.term || ""`
equals the term itself, so the term is stored unchanged. -/
def scrapeAndStore (url term : String) (env : FetchEnv)
    (store : List FirecrawlRow) : GocResult :=
  let trace := retryWithExponentialBackoff env.attempts 3 2000 env.jitter
  match trace.outcome with
  | Except.ok res =>
    if !res.success then
      let msg := orDefault res.error "Unknown error occurred"
      let store2 := upsertFailure store url msg term env.now
      { store := store2, ret := findFirstByUrl store2 url,
        fetchCalls := trace.calls, waits := trace.waits, upserts := 1 }
    else
      let store2 := upsertSuccess store res url term env.now
      { store := store2, ret := findFirstByUrl store2 url,
        fetchCalls := trace.calls, waits := trace.waits, upserts := 1 }
  | Except.error e =>
    let store2 := upsertFailure store url (errorMessage e) term env.now
    { store := store2, ret := findFirstByUrl store2 url,
      fetchCalls := trace.calls, waits := trace.waits, upserts := 1 }

/-- Embedding of `getOrCreateFirecrawlResponse` (firecrawl.ts lines 88-200):
look up the url; if the stored row has truthy markdown return it immediately
(cache hit, no network call and no write); otherwise scrape and store. -/
def getOrCreateFirecrawlResponse (url term : String) (env : FetchEnv)
    (store : List FirecrawlRow) : GocResult :=
  let existing := findFirstByUrl store url
  if cacheHit existing then
    { store := store, ret := existing, fetchCalls := 0, waits := [], upserts := 0 }
  else
    scrapeAndStore url term env store

/-- JavaScript truthiness of `r?.success` (firecrawl.ts line 227), where `r`
may be undefined. -/
def truthySuccess (o : Option FirecrawlRow) : Bool :=
  match o with
  | some r => r.success
  | none => false

/-- The sequential loop of `getOrCreateFirecrawlResponsesSequentially`
(firecrawl.ts lines 214-225): process the requests in order, threading the
database through; `envs i` supplies the external inputs of the `i`-th call.
The fixed inter-request pause (`wait(delayBetweenRequests)`) only spends
time and is not part of the returned data, so it is not modelled. -/
def runSequentially (envs : Nat → FetchEnv) :
    List (String × String) → Nat → List FirecrawlRow →
      List (Option FirecrawlRow) × List FirecrawlRow
  | [], _, store => ([], store)
  | req :: rest, i, store =>
    let r := getOrCreateFirecrawlResponse req.1 req.2 (envs i) store
    let next := runSequentially envs rest (i + 1) r.store
    (r.ret :: next.1, next.2)

/-- Result of the batch coordinator: the per-request results in input order,
the database afterwards, and the success/failure counts the source computes
for its summary log (firecrawl.ts lines 227-230). -/
structure BatchResult where
  results : List (Option FirecrawlRow)
  store : List FirecrawlRow
  successCount : Nat
  errorCount : Nat

/-- Embedding of `getOrCreateFirecrawlResponsesSequentially` (firecrawl.ts
lines 206-233).  Each request is a `(url, term)` pair. -/
def getOrCreateFirecrawlResponsesSequentially (envs : Nat → FetchEnv)
    (requests : List (String × String)) (store : List FirecrawlRow) : BatchResult :=
  let run := runSequentially envs requests 0 store
  let successCount := (run.1.filter truthySuccess).length
  { results := run.1, store := run.2,
    successCount := successCount,
    errorCount := run.1.length - successCount }

/-- Identifier of a keyword record: a database id for stored rows, or the
temporary string id `temp-<index>` produced when persistence fails
(keywords.ts line 251). -/
inductive KeywordId
  | dbId (n : Nat)
  | tempId (n : Nat)
deriving DecidableEq

/-- One keyword record as returned by `getOrCreateKeywordsFromHeaders`:
either a row of the `keywords` table or an in-memory fallback object. -/
structure KeywordRow where
  id : KeywordId
  inputTerm : String
  keyword : String
  sourceUrl : String
  source : String
  createdAt : Nat
  updatedAt : Nat
deriving DecidableEq

/-- One keyword object extracted by the LLM (`keywords` entry of the
`generateObject` schema, keywords.ts lines 208-213). -/
structure LlmKeyword where
  keyword : String
  sourceUrl : String
deriving DecidableEq

/-- A line matched by the H2-header regex `/^##\s+(.*)$/gm` (keywords.ts
line 156): the line starts with two hash signs followed by at least one
whitespace character; the whole matching line is returned. -/
def isH2HeaderLine (l : String) : Bool :=
  match l.toList with
  | '#' :: '#' :: c :: _ => c.isWhitespace
  | _ => false

/-- The list of H2-header matches of `markdown.match(/^##\s+(.*)$/gm)`. -/
def extractH2Headers (markdown : String) : List String :=
  (markdown.splitOn "\n").filter isH2HeaderLine

/-- The markdown/error validation of `getOrCreateKeywordsFromHeaders`
(keywords.ts lines 135-145): a response is kept when its markdown is present
and non-empty and its error field is not truthy (absent or empty). -/
def hasValidMarkdown (r : FirecrawlRow) : Bool :=
  (match r.markdown with
   | some m => decide (0 < m.length)
   | none => false) &&
  (match r.error with
   | some e => e == ""
   | none => true)

/-- The per-response context block built for the LLM prompt (keywords.ts
lines 172-185); empty when the response has no H2 headers.  The surrounding
prose of the template literal is abridged to its fixed delimiters, which
preserves exactly when the block is empty. -/
def contextPart (r : FirecrawlRow) : String :=
  match extractH2Headers (r.markdown.getD "") with
  | [] => ""
  | headers =>
    "==========\nThe headers for the organic result \"" ++ r.sourceUrl ++
      "\" are:\n" ++ String.intercalate "\n" headers ++ "\n==========\n"

/-- The in-memory fallback keywords returned when the database insert fails
(keywords.ts lines 250-258): one object per extracted keyword, with a
temporary id, the lowercased keyword text, and source "headers". -/
def tempKeywords (term : String) (kws : List LlmKeyword) (now : Nat) : List KeywordRow :=
  kws.enum.map (fun p =>
    { id := KeywordId.tempId p.1, inputTerm := term,
      keyword := p.2.keyword.toLower, sourceUrl := p.2.sourceUrl,
      source := "headers", createdAt := now, updatedAt := now })

/-- External inputs of one `getOrCreateKeywordsFromHeaders` call: the rows
returned by each database query, the outcome of the `generateObject` LLM
call, the outcome of the keyword insert, and the timestamp for `new Date()`.
`storedKeywords` is the result of the final findMany over the stored rows. -/
structure KeywordsEnv where
  existingHeaderKeywords : List KeywordRow
  firecrawlResults : List FirecrawlRow
  llmResult : Except JsError (List LlmKeyword)
  insertResult : Except JsError Unit
  storedKeywords : List KeywordRow
  now : Nat

/-- Embedding of `getOrCreateKeywordsFromHeaders` (keywords.ts lines 108-282).
Every failure of an external collaborator is represented in the environment;
the outer catch-all (lines 276-281) has no work left to do because every
modelled path already returns a list. -/
def getOrCreateKeywordsFromHeaders (term : String) (env : KeywordsEnv) : List KeywordRow :=
  if 0 < env.existingHeaderKeywords.length then
    env.existingHeaderKeywords
  else
    let firecrawlResults := env.firecrawlResults
    if firecrawlResults.length = 0 then []
    else
      let validResponses := firecrawlResults.filter hasValidMarkdown
      if validResponses.length = 0 then []
      else
        let responsesWithHeaders := validResponses.filter
          (fun r => !(extractH2Headers (r.markdown.getD "")).isEmpty)
        if responsesWithHeaders.length = 0 then []
        else
          let context := String.intercalate ";"
            ((responsesWithHeaders.map contextPart).filter
              (fun c => 0 < c.length))
          if context.length = 0 then []
          else
            match env.llmResult with
            | Except.error _ => []
            | Except.ok kws =>
              if kws.length = 0 then []
              else
                match env.insertResult with
                | Except.error _ => tempKeywords term kws env.now
                | Except.ok _ => env.storedKeywords

/-- Zero jitter stream, used in concrete scenarios. -/
def zeroJitter : Nat → Rat :=
  fun _ => 0

/-- A fetch that is rate-limited on attempts 0, 1 and 2 and succeeds on
attempt 3 (the fourth invocation), used for the retry-count scenarios. -/
def throttledThriceAttempts : Nat → Except JsError Nat :=
  fun i => if i < 3 then Except.error rlError else Except.ok 42

/-- Scrape metadata reporting a source url different from the requested one
(as happens when the scraper reports the post-redirect canonical url). -/
def redirectMeta : FirecrawlMetadata :=
  { sourceURL := some "https://other.example", scrapeId := none, title := none,
    description := none, language := none, ogTitle := none,
    ogDescription := none, ogUrl := none, ogImage := none, ogSiteName := none }

/-- A successful scrape whose metadata reports a different source url. -/
def redirectScrape : FirecrawlScrapeResult :=
  { success := true, error := none, markdown := some "# heading",
    metadata := some redirectMeta }

/-- Environment whose fetch succeeds at once with `redirectScrape`. -/
def redirectEnv : FetchEnv :=
  { attempts := fun _ => Except.ok redirectScrape, jitter := zeroJitter, now := 0 }

/-- A successful scrape with markdown and no metadata object. -/
def plainScrape : FirecrawlScrapeResult :=
  { success := true, error := none, markdown := some "# ok", metadata := none }

/-- Environment whose fetch succeeds at once with `plainScrape`. -/
def plainEnv : FetchEnv :=
  { attempts := fun _ => Except.ok plainScrape, jitter := zeroJitter, now := 0 }

/-- A successful scrape that carries no markdown payload at all. -/
def noMarkdownScrape : FirecrawlScrapeResult :=
  { success := true, error := none, markdown := none, metadata := none }

/-- Environment whose fetch succeeds at once with `noMarkdownScrape`. -/
def noMarkdownEnv : FetchEnv :=
  { attempts := fun _ => Except.ok noMarkdownScrape, jitter := zeroJitter, now := 0 }

/-- Environment whose fetch always fails with the permanent error. -/
def permFailEnv : FetchEnv :=
  { attempts := fun _ => Except.error permError, jitter := zeroJitter, now := 0 }

/-- Environment whose fetch is rate-limited on every invocation. -/
def throttledEnv : FetchEnv :=
  { attempts := fun _ => Except.error rlError, jitter := zeroJitter, now := 0 }

/-- Environment whose fetch is rate-limited on attempts 0-2 and succeeds on
attempt 3 with `plainScrape`, with jitter 500 on every draw. -/
def lateSuccessEnv : FetchEnv :=
  { attempts := fun i => if i < 3 then Except.error rlError else Except.ok plainScrape,
    jitter := fun _ => 500, now := 0 }

/-- A cached row with truthy markdown, used for the cache-hit scenarios. -/
def cachedRow : FirecrawlRow :=
  { sourceUrl := "https://cached.example", markdown := some "# cached",
    success := true, error := none, inputTerm := "term", scrapeId := "",
    title := "", description := "", language := "", ogTitle := "",
    ogDescription := "", ogUrl := "", ogImage := "", ogSiteName := "",
    updatedAt := 0 }

/-- A row of the store whose success flag is false and whose markdown is
absent: the shape of a stored failure record. -/
def storedFailureRow : FirecrawlRow :=
  failureRow "https://failed.example" "boom" "term" 0

/-- The store invariant of spec section 3: at most one stored row per key. -/
def atMostOnePerKey (store : List FirecrawlRow) : Prop :=
  ∀ key : String, (store.filter (fun r => r.sourceUrl == key)).length ≤ 1

/-- Well-formedness of a store maintained by this subsystem: a row marked
unsuccessful always carries an error message (both failure upserts store
one, and the success upsert clears the flag and the error together). -/
def wellFormedStore (store : List FirecrawlRow) : Prop :=
  ∀ r ∈ store, r.success = false → r.error ≠ none


/-- The conditions under which `getOrCreateKeywordsFromHeaders` cannot
extract keywords and degrades to the empty array (keywords.ts lines 129-132,
149-152, 166-169, 187-190, 216-220 and 223-226): no stored firecrawl
responses for the term, none with valid markdown, none with extractable H2
headers, an empty LLM context, a failed LLM call, or an LLM result with no
keywords. -/
def extractionImpossible (env : KeywordsEnv) : Prop :=
  env.firecrawlResults.length = 0 ∨
  (env.firecrawlResults.filter hasValidMarkdown).length = 0 ∨
  ((env.firecrawlResults.filter hasValidMarkdown).filter
    (fun r => !(extractH2Headers (r.markdown.getD "")).isEmpty)).length = 0 ∨
  (String.intercalate ";"
    ((((env.firecrawlResults.filter hasValidMarkdown).filter
      (fun r => !(extractH2Headers (r.markdown.getD "")).isEmpty)).map
        contextPart).filter (fun c => 0 < c.length))).length = 0 ∨
  (∃ e, env.llmResult = Except.error e) ∨
  (∃ kws, env.llmResult = Except.ok kws ∧ kws.length = 0)


theorem retryFrom_calls_le {T : Type} (attempts : Nat → Except JsError T)
    (baseDelay : Rat) (jitter : Nat → Rat) :
    ∀ remaining attempt,
      (retryFrom attempts baseDelay jitter attempt remaining).calls ≤ remaining + 1 := by
  intro remaining
  induction remaining with
  | zero =>
    intro attempt
    simp only [retryFrom]
    cases attempts attempt <;> simp
  | succ r ih =>
    intro attempt
    simp only [retryFrom]
    cases attempts attempt with
    | ok v => simp
    | error e =>
      have h2 := ih (attempt + 1)
      cases h : isRateLimitError e <;> simp [h] <;> omega

theorem retryFrom_calls_pos {T : Type} (attempts : Nat → Except JsError T)
    (baseDelay : Rat) (jitter : Nat → Rat) :
    ∀ remaining attempt,
      1 ≤ (retryFrom attempts baseDelay jitter attempt remaining).calls := by
  intro remaining
  induction remaining with
  | zero =>
    intro attempt
    simp only [retryFrom]
    cases attempts attempt <;> simp
  | succ r ih =>
    intro attempt
    simp only [retryFrom]
    cases attempts attempt with
    | ok v => simp
    | error e =>
      have h2 := ih (attempt + 1)
      cases h : isRateLimitError e <;> simp [h] <;> omega

theorem retryFrom_ok_iff {T : Type} (attempts : Nat → Except JsError T)
    (baseDelay : Rat) (jitter : Nat → Rat) :
    ∀ remaining attempt (v : T),
      (retryFrom attempts baseDelay jitter attempt remaining).outcome = Except.ok v ↔
        ∃ n, n ≤ remaining ∧ attempts (attempt + n) = Except.ok v ∧
          ∀ m, m < n → ∃ e, attempts (attempt + m) = Except.error e ∧
            isRateLimitError e = true := by
  intro remaining
  induction remaining with
  | zero =>
    intro attempt v
    have hout : (retryFrom attempts baseDelay jitter attempt 0).outcome = Except.ok v ↔
        attempts attempt = Except.ok v := by
      cases hA : attempts attempt <;> simp [retryFrom, hA]
    rw [hout]
    constructor
    · intro h
      exact ⟨0, Nat.le_refl 0, by simpa using h, fun m hm => absurd hm (Nat.not_lt_zero m)⟩
    · rintro ⟨n, hn, hAn, _⟩
      have hn0 : n = 0 := Nat.le_zero.mp hn
      subst hn0
      simpa using hAn
  | succ r ih =>
    intro attempt v
    cases hA : attempts attempt with
    | ok w =>
      have hout : (retryFrom attempts baseDelay jitter attempt (r + 1)).outcome =
          Except.ok w := by
        simp [retryFrom, hA]
      rw [hout]
      constructor
      · intro h
        refine ⟨0, Nat.zero_le _, ?_, fun m hm => absurd hm (Nat.not_lt_zero m)⟩
        rw [Nat.add_zero, hA, h]
      · rintro ⟨n, hn, hAn, hprev⟩
        cases n with
        | zero =>
          rw [Nat.add_zero, hA] at hAn
          exact hAn
        | succ m =>
          obtain ⟨e, hE, _⟩ := hprev 0 (Nat.succ_pos m)
          rw [Nat.add_zero, hA] at hE
          cases hE
    | error e =>
      by_cases hRL : isRateLimitError e = true
      · have hstep : (retryFrom attempts baseDelay jitter attempt (r + 1)).outcome =
            (retryFrom attempts baseDelay jitter (attempt + 1) r).outcome := by
          simp [retryFrom, hA, hRL]
        rw [hstep, ih (attempt + 1) v]
        constructor
        · rintro ⟨n, hn, hAn, hprev⟩
          refine ⟨n + 1, Nat.succ_le_succ hn, ?_, ?_⟩
          · have heq : attempt + (n + 1) = attempt + 1 + n := by omega
            rw [heq]
            exact hAn
          · intro m hm
            cases m with
            | zero => exact ⟨e, by rw [Nat.add_zero]; exact hA, hRL⟩
            | succ m2 =>
              obtain ⟨e2, hE2, hRL2⟩ := hprev m2 (by omega)
              refine ⟨e2, ?_, hRL2⟩
              have heq : attempt + (m2 + 1) = attempt + 1 + m2 := by omega
              rw [heq]
              exact hE2
        · rintro ⟨n, hn, hAn, hprev⟩
          cases n with
          | zero =>
            rw [Nat.add_zero, hA] at hAn
            cases hAn
          | succ n2 =>
            refine ⟨n2, by omega, ?_, ?_⟩
            · have heq : attempt + 1 + n2 = attempt + (n2 + 1) := by omega
              rw [heq]
              exact hAn
            · intro m hm
              obtain ⟨e2, hE2, hRL2⟩ := hprev (m + 1) (by omega)
              refine ⟨e2, ?_, hRL2⟩
              have heq : attempt + 1 + m = attempt + (m + 1) := by omega
              rw [heq]
              exact hE2
      · have hout : (retryFrom attempts baseDelay jitter attempt (r + 1)).outcome =
            Except.error e := by
          simp [retryFrom, hA, hRL]
        rw [hout]
        constructor
        · intro h
          cases h
        · rintro ⟨n, hn, hAn, hprev⟩
          cases n with
          | zero =>
            rw [Nat.add_zero, hA] at hAn
            cases hAn
          | succ n2 =>
            obtain ⟨e2, hE2, hRL2⟩ := hprev 0 (Nat.succ_pos n2)
            rw [Nat.add_zero, hA] at hE2
            cases hE2
            exact absurd hRL2 hRL

theorem retryFrom_waits_eq {T : Type} (attempts : Nat → Except JsError T)
    (baseDelay : Rat) (jitter : Nat → Rat) :
    ∀ remaining attempt n w,
      (retryFrom attempts baseDelay jitter attempt remaining).waits[n]? = some w →
      w = baseDelay * 2 ^ (attempt + n) + jitter (attempt + n) := by
  intro remaining
  induction remaining with
  | zero =>
    intro attempt n w h
    have hw : (retryFrom attempts baseDelay jitter attempt 0).waits = [] := by
      cases hA : attempts attempt <;> simp [retryFrom, hA]
    rw [hw] at h
    simp at h
  | succ r ih =>
    intro attempt n w h
    cases hA : attempts attempt with
    | ok v =>
      have hw : (retryFrom attempts baseDelay jitter attempt (r + 1)).waits = [] := by
        simp [retryFrom, hA]
      rw [hw] at h
      simp at h
    | error e =>
      by_cases hRL : isRateLimitError e = true
      · have hw : (retryFrom attempts baseDelay jitter attempt (r + 1)).waits =
            (baseDelay * 2 ^ attempt + jitter attempt) ::
              (retryFrom attempts baseDelay jitter (attempt + 1) r).waits := by
          simp [retryFrom, hA, hRL]
        rw [hw] at h
        cases n with
        | zero =>
          simp at h
          rw [← h]
          simp
        | succ m =>
          simp only [List.getElem?_cons_succ] at h
          have hm := ih (attempt + 1) m w h
          have heq : attempt + 1 + m = attempt + (m + 1) := by omega
          rw [heq] at hm
          exact hm
      · have hw : (retryFrom attempts baseDelay jitter attempt (r + 1)).waits = [] := by
          simp [retryFrom, hA, hRL]
        rw [hw] at h
        simp at h

theorem find?_map_update (update : FirecrawlRow → FirecrawlRow) (key : String)
    (hu : ∀ r, (update r).sourceUrl = r.sourceUrl) :
    ∀ store : List FirecrawlRow,
      store.any (fun r => r.sourceUrl == key) = true →
      ∃ r0, r0 ∈ store ∧
        (store.map (fun r => if r.sourceUrl == key then update r else r)).find?
          (fun r => r.sourceUrl == key) = some (update r0) := by
  intro store
  induction store with
  | nil => intro h; simp at h
  | cons a l ihl =>
    intro h
    by_cases ha : (a.sourceUrl == key) = true
    · refine ⟨a, List.mem_cons_self a l, ?_⟩
      have hpred : ((if a.sourceUrl == key then update a else a).sourceUrl == key) = true := by
        rw [if_pos ha, hu a]
        exact ha
      simp only [List.map_cons, if_pos ha]
      exact List.find?_cons_of_pos _ (by rw [hu a]; exact ha)
    · have hl : l.any (fun r => r.sourceUrl == key) = true := by
        simp only [List.any_cons, ha, Bool.false_or] at h
        exact h
      obtain ⟨r0, hr0, hfind⟩ := ihl hl
      refine ⟨r0, List.mem_cons_of_mem a hr0, ?_⟩
      simp only [List.map_cons, if_neg ha]
      rw [List.find?_cons_of_neg _ (by simpa using ha)]
      exact hfind

theorem find?_append_new (key : String) (row : FirecrawlRow)
    (hrow : (row.sourceUrl == key) = true) :
    ∀ store : List FirecrawlRow,
      store.any (fun r => r.sourceUrl == key) = false →
      (store ++ [row]).find? (fun r => r.sourceUrl == key) = some row := by
  intro store
  induction store with
  | nil =>
    intro _
    rw [List.nil_append]
    exact List.find?_cons_of_pos _ hrow
  | cons a l ihl =>
    intro h
    simp only [List.any_cons, Bool.or_eq_false_iff] at h
    rw [List.cons_append, List.find?_cons_of_neg _ (by simp [h.1])]
    exact ihl h.2

theorem findFirstByUrl_upsert (store : List FirecrawlRow) (row : FirecrawlRow)
    (update : FirecrawlRow → FirecrawlRow)
    (hu : ∀ r, (update r).sourceUrl = r.sourceUrl)
    (P : FirecrawlRow → Prop)
    (hrow : P row) (hupd : ∀ r, P (update r)) :
    ∃ r, findFirstByUrl (upsert store row update) row.sourceUrl = some r ∧ P r := by
  unfold upsert findFirstByUrl
  by_cases h : store.any (fun r => r.sourceUrl == row.sourceUrl) = true
  · rw [if_pos h]
    obtain ⟨r0, _, hfind⟩ := find?_map_update update row.sourceUrl hu store h
    exact ⟨update r0, hfind, hupd r0⟩
  · rw [if_neg h]
    have h2 : store.any (fun r => r.sourceUrl == row.sourceUrl) = false :=
      Bool.not_eq_true _ ▸ Bool.of_not_eq_true h
    exact ⟨row, find?_append_new row.sourceUrl row (by simp) store h2, hrow⟩

theorem filter_map_update_length (update : FirecrawlRow → FirecrawlRow)
    (key k : String) (hu : ∀ r, (update r).sourceUrl = r.sourceUrl) :
    ∀ store : List FirecrawlRow,
      ((store.map (fun r => if r.sourceUrl == key then update r else r)).filter
        (fun r => r.sourceUrl == k)).length =
      (store.filter (fun r => r.sourceUrl == k)).length := by
  intro store
  induction store with
  | nil => simp
  | cons a l ih =>
    have hkeep : ((if a.sourceUrl == key then update a else a).sourceUrl == k) =
        (a.sourceUrl == k) := by
      by_cases h : (a.sourceUrl == key) = true
      · rw [if_pos h, hu a]
      · rw [if_neg h]
    simp only [List.map_cons, List.filter_cons, hkeep]
    by_cases hk : (a.sourceUrl == k) = true
    · simp only [hk, if_true, List.length_cons, ih]
    · simp only [hk, if_false]
      exact ih

theorem atMostOnePerKey_upsert (store : List FirecrawlRow) (row : FirecrawlRow)
    (update : FirecrawlRow → FirecrawlRow)
    (hu : ∀ r, (update r).sourceUrl = r.sourceUrl)
    (hinv : atMostOnePerKey store) : atMostOnePerKey (upsert store row update) := by
  intro k
  unfold upsert
  by_cases h : store.any (fun r => r.sourceUrl == row.sourceUrl) = true
  · rw [if_pos h, filter_map_update_length update row.sourceUrl k hu store]
    exact hinv k
  · rw [if_neg h, List.filter_append]
    have h2 : ∀ r ∈ store, ¬(r.sourceUrl == row.sourceUrl) = true := by
      intro r hr hcontra
      exact h (List.any_eq_true.mpr ⟨r, hr, hcontra⟩)
    by_cases hk : (row.sourceUrl == k) = true
    · have hkey : row.sourceUrl = k := by simpa using hk
      have hempty : store.filter (fun r => r.sourceUrl == k) = [] := by
        rw [List.filter_eq_nil]
        intro r hr
        rw [← hkey]
        exact h2 r hr
      simp [hempty, hk]
    · have hone : List.filter (fun r => r.sourceUrl == k) [row] = [] := by
        simp [List.filter, hk]
      rw [hone, List.append_nil]
      exact hinv k

theorem scrapeAndStore_upserts (url term : String) (env : FetchEnv)
    (store : List FirecrawlRow) :
    (scrapeAndStore url term env store).upserts = 1 := by
  unfold scrapeAndStore
  dsimp only
  split
  · split <;> rfl
  · rfl

theorem scrapeAndStore_fetchCalls (url term : String) (env : FetchEnv)
    (store : List FirecrawlRow) :
    (scrapeAndStore url term env store).fetchCalls =
      (retryWithExponentialBackoff env.attempts 3 2000 env.jitter).calls := by
  unfold scrapeAndStore
  dsimp only
  split
  · split <;> rfl
  · rfl

theorem scrapeAndStore_waits (url term : String) (env : FetchEnv)
    (store : List FirecrawlRow) :
    (scrapeAndStore url term env store).waits =
      (retryWithExponentialBackoff env.attempts 3 2000 env.jitter).waits := by
  unfold scrapeAndStore
  dsimp only
  split
  · split <;> rfl
  · rfl

theorem goc_ret_eq_find (url term : String) (env : FetchEnv)
    (store : List FirecrawlRow) :
    (getOrCreateFirecrawlResponse url term env store).ret =
      findFirstByUrl (getOrCreateFirecrawlResponse url term env store).store url := by
  unfold getOrCreateFirecrawlResponse
  by_cases h : cacheHit (findFirstByUrl store url) = true
  · rw [if_pos h]
  · rw [if_neg h]
    unfold scrapeAndStore
    dsimp only
    split
    · split <;> rfl
    · rfl

theorem atMostOnePerKey_goc (url term : String) (env : FetchEnv)
    (store : List FirecrawlRow) (hinv : atMostOnePerKey store) :
    atMostOnePerKey (getOrCreateFirecrawlResponse url term env store).store := by
  unfold getOrCreateFirecrawlResponse
  by_cases h : cacheHit (findFirstByUrl store url) = true
  · rw [if_pos h]
    exact hinv
  · rw [if_neg h]
    unfold scrapeAndStore
    dsimp only
    split
    · split
      · exact atMostOnePerKey_upsert _ _ _ (fun r => rfl) hinv
      · exact atMostOnePerKey_upsert _ _ _ (fun r => rfl) hinv
    · exact atMostOnePerKey_upsert _ _ _ (fun r => rfl) hinv

theorem runSequentially_length (envs : Nat → FetchEnv) :
    ∀ (requests : List (String × String)) (i : Nat) (store : List FirecrawlRow),
      (runSequentially envs requests i store).1.length = requests.length := by
  intro requests
  induction requests with
  | nil => intro i store; rfl
  | cons req rest ih =>
    intro i store
    simp only [runSequentially]
    simp [ih]

theorem runSequentially_store_inv (envs : Nat → FetchEnv) :
    ∀ (requests : List (String × String)) (i : Nat) (store : List FirecrawlRow),
      atMostOnePerKey store →
      atMostOnePerKey (runSequentially envs requests i store).2 := by
  intro requests
  induction requests with
  | nil => intro i store h; exact h
  | cons req rest ih =>
    intro i store h
    simp only [runSequentially]
    exact ih (i + 1) _ (atMostOnePerKey_goc req.1 req.2 (envs i) store h)

theorem retryFrom_error_of_nonRL {T : Type} (attempts : Nat → Except JsError T)
    (baseDelay : Rat) (jitter : Nat → Rat) (a r : Nat) (e : JsError)
    (h0 : attempts a = Except.error e) (hrl : isRateLimitError e = false) :
    retryFrom attempts baseDelay jitter a r =
      { calls := 1, waits := [], outcome := Except.error e } := by
  cases r with
  | zero => simp [retryFrom, h0]
  | succ r2 => simp [retryFrom, h0, hrl]

/-- Claim C1, counterexample: with the default maxRetries of 3 and a fetch
that is rate-limited on attempts 0, 1 and 2 and succeeds on attempt 3,
`retryWithExponentialBackoff` invokes the fetch four times and still returns
the success payload, contradicting "at most 3 times before giving up" and
"a success on attempt N with N <= 3 is the only way a success payload is
returned after prior rate-limit failures". -/
theorem C1_counterexample :
    (retryWithExponentialBackoff throttledThriceAttempts 3 2000 zeroJitter).outcome =
      Except.ok 42 ∧
    (retryWithExponentialBackoff throttledThriceAttempts 3 2000 zeroJitter).calls = 4 := by
  exact ⟨rfl, rfl⟩

/-- Claim C1, amended: with maxRetries = 3 the fetch function is invoked at
most 4 times (maxRetries + 1 attempts), and a success payload is returned
exactly when some attempt N with N <= 4 succeeds and every earlier attempt
raised a rate-limit-classified error. -/
theorem C1_amended_retry_bound {T : Type} (attempts : Nat → Except JsError T)
    (baseDelay : Rat) (jitter : Nat → Rat) (v : T) :
    (retryWithExponentialBackoff attempts 3 baseDelay jitter).calls ≤ 4 ∧
    ((retryWithExponentialBackoff attempts 3 baseDelay jitter).outcome = Except.ok v ↔
      ∃ n, n ≤ 3 ∧ attempts n = Except.ok v ∧
        ∀ m, m < n → ∃ e, attempts m = Except.error e ∧
          isRateLimitError e = true) := by
  constructor
  · exact retryFrom_calls_le attempts baseDelay jitter 3 0
  · have h := retryFrom_ok_iff attempts baseDelay jitter 3 0 v
    simpa using h

/-- Claim C4: every wait observed in a `retryWithExponentialBackoff` run, at
0-based retry index n with base delay d, equals d * 2 ^ n + jitter n, and
when every jitter draw lies in [0, 1000) the wait lies in
[d * 2 ^ n, d * 2 ^ n + 1000).  The computation is a pure function of the
attempt index and the draw (the embedding has no other effect). -/
theorem C4_backoff_wait {T : Type} (attempts : Nat → Except JsError T)
    (maxRetries : Nat) (baseDelay : Rat) (jitter : Nat → Rat)
    (hj : ∀ i, 0 ≤ jitter i ∧ jitter i < 1000) (n : Nat) (w : Rat)
    (hw : (retryWithExponentialBackoff attempts maxRetries baseDelay jitter).waits[n]? =
      some w) :
    w = baseDelay * 2 ^ n + jitter n ∧
    baseDelay * 2 ^ n ≤ w ∧ w < baseDelay * 2 ^ n + 1000 := by
  have h := retryFrom_waits_eq attempts baseDelay jitter maxRetries 0 n w hw
  rw [Nat.zero_add] at h
  refine ⟨h, ?_, ?_⟩
  · have hj1 := (hj n).1
    rw [h]
    linarith
  · have hj2 := (hj n).2
    rw [h]
    linarith

/-- Witness for C4: a run with base delay 2000, jitter 500 and a rate-limited
first attempt observes a first wait of 2000 * 2 ^ 0 + 500 = 2500, inside
the required interval. -/
theorem C4_backoff_wait_witness :
    (2500 : Rat) = 2000 * 2 ^ 0 + 500 ∧
    (2000 : Rat) * 2 ^ 0 ≤ 2500 ∧ (2500 : Rat) < 2000 * 2 ^ 0 + 1000 := by
  have hw : (retryWithExponentialBackoff throttledThriceAttempts 3 2000
      (fun _ => 500)).waits[0]? = some 2500 := by
    norm_num [retryWithExponentialBackoff, retryFrom, throttledThriceAttempts,
      isRateLimitError, rlError]
  exact C4_backoff_wait throttledThriceAttempts 3 2000 (fun _ => 500)
    (fun i => by norm_num) 0 2500 hw

theorem scrapeAndStore_outcome_ok_success (url term : String) (env : FetchEnv)
    (store : List FirecrawlRow) (res : FirecrawlScrapeResult)
    (hout : (retryWithExponentialBackoff env.attempts 3 2000 env.jitter).outcome =
      Except.ok res)
    (hs : res.success = true) :
    scrapeAndStore url term env store =
      { store := upsertSuccess store res url term env.now,
        ret := findFirstByUrl (upsertSuccess store res url term env.now) url,
        fetchCalls := (retryWithExponentialBackoff env.attempts 3 2000 env.jitter).calls,
        waits := (retryWithExponentialBackoff env.attempts 3 2000 env.jitter).waits,
        upserts := 1 } := by
  simp [scrapeAndStore, hout, hs]

theorem scrapeAndStore_outcome_ok_failure (url term : String) (env : FetchEnv)
    (store : List FirecrawlRow) (res : FirecrawlScrapeResult)
    (hout : (retryWithExponentialBackoff env.attempts 3 2000 env.jitter).outcome =
      Except.ok res)
    (hs : res.success = false) :
    scrapeAndStore url term env store =
      { store := upsertFailure store url
          (orDefault res.error "Unknown error occurred") term env.now,
        ret := findFirstByUrl (upsertFailure store url
          (orDefault res.error "Unknown error occurred") term env.now) url,
        fetchCalls := (retryWithExponentialBackoff env.attempts 3 2000 env.jitter).calls,
        waits := (retryWithExponentialBackoff env.attempts 3 2000 env.jitter).waits,
        upserts := 1 } := by
  simp [scrapeAndStore, hout, hs]

theorem scrapeAndStore_outcome_error (url term : String) (env : FetchEnv)
    (store : List FirecrawlRow) (e : JsError)
    (hout : (retryWithExponentialBackoff env.attempts 3 2000 env.jitter).outcome =
      Except.error e) :
    scrapeAndStore url term env store =
      { store := upsertFailure store url (errorMessage e) term env.now,
        ret := findFirstByUrl (upsertFailure store url (errorMessage e) term env.now) url,
        fetchCalls := (retryWithExponentialBackoff env.attempts 3 2000 env.jitter).calls,
        waits := (retryWithExponentialBackoff env.attempts 3 2000 env.jitter).waits,
        upserts := 1 } := by
  simp [scrapeAndStore, hout]

theorem goc_cache_hit_eq (url term : String) (env : FetchEnv)
    (store : List FirecrawlRow)
    (h : cacheHit (findFirstByUrl store url) = true) :
    getOrCreateFirecrawlResponse url term env store =
      { store := store, ret := findFirstByUrl store url, fetchCalls := 0,
        waits := [], upserts := 0 } := by
  unfold getOrCreateFirecrawlResponse
  rw [if_pos h]

theorem goc_cache_miss_eq (url term : String) (env : FetchEnv)
    (store : List FirecrawlRow)
    (h : ¬ cacheHit (findFirstByUrl store url) = true) :
    getOrCreateFirecrawlResponse url term env store =
      scrapeAndStore url term env store := by
  unfold getOrCreateFirecrawlResponse
  rw [if_neg h]

/-- Claim C2, counterexample: when the scrape succeeds but its metadata
reports a source url different from the requested one, the success row is
stored under the reported url while the function re-queries the requested
url, so the caller receives no record at all (the JS `undefined`),
contradicting "always returns a stored record carrying an explicit success
flag". -/
theorem C2_counterexample :
    (getOrCreateFirecrawlResponse "https://req.example" "term" redirectEnv []).ret =
      none := by
  decide

/-- Claim C2, amended: provided the store is well formed (failure rows carry
an error message) and a successful scrape reports no alternate source url
(its metadata source url is absent, empty, or equal to the requested url),
`getOrCreateFirecrawlResponse` never throws for fetch failures and always
returns a stored record with an explicit success flag: a row that is either
marked successful, or marked failed together with an error message. -/
theorem C2_amended_always_record (url term : String) (env : FetchEnv)
    (store : List FirecrawlRow)
    (hwf : wellFormedStore store)
    (hkey : ∀ res, (retryWithExponentialBackoff env.attempts 3 2000 env.jitter).outcome =
        Except.ok res → res.success = true →
        orDefault (res.metadata.bind (fun m => m.sourceURL)) url = url) :
    ∃ r, (getOrCreateFirecrawlResponse url term env store).ret = some r ∧
      (r.success = false → r.error ≠ none) := by
  by_cases h : cacheHit (findFirstByUrl store url) = true
  · rw [goc_cache_hit_eq url term env store h]
    cases hex : findFirstByUrl store url with
    | none => rw [hex] at h; simp [cacheHit] at h
    | some r =>
      exact ⟨r, rfl, hwf r (List.mem_of_find?_eq_some hex)⟩
  · rw [goc_cache_miss_eq url term env store h]
    cases hout : (retryWithExponentialBackoff env.attempts 3 2000 env.jitter).outcome with
    | ok res =>
      cases hs : res.success with
      | true =>
        rw [scrapeAndStore_outcome_ok_success url term env store res hout hs]
        have hurl : (successRow res url term env.now).sourceUrl = url :=
          hkey res hout hs
        obtain ⟨r, hr, hp⟩ := findFirstByUrl_upsert store
          (successRow res url term env.now)
          (fun r => { r with markdown := res.markdown, success := true,
                             error := none, updatedAt := env.now })
          (fun r => rfl)
          (fun r => r.success = false → r.error ≠ none)
          (by intro hfalse
              rw [show (successRow res url term env.now).success = res.success from rfl,
                hs] at hfalse
              cases hfalse)
          (by intro r hfalse; cases hfalse)
        rw [hurl] at hr
        exact ⟨r, hr, hp⟩
      | false =>
        rw [scrapeAndStore_outcome_ok_failure url term env store res hout hs]
        obtain ⟨r, hr, hp⟩ := findFirstByUrl_upsert store
          (failureRow url (orDefault res.error "Unknown error occurred") term env.now)
          (fun r => { r with error := some (orDefault res.error "Unknown error occurred"),
                             success := false, updatedAt := env.now })
          (fun r => rfl)
          (fun r => r.success = false → r.error ≠ none)
          (by intro _; simp [failureRow])
          (by intro r _; simp)
        exact ⟨r, hr, hp⟩
    | error e =>
      rw [scrapeAndStore_outcome_error url term env store e hout]
      obtain ⟨r, hr, hp⟩ := findFirstByUrl_upsert store
        (failureRow url (errorMessage e) term env.now)
        (fun r => { r with error := some (errorMessage e),
                           success := false, updatedAt := env.now })
        (fun r => rfl)
        (fun r => r.success = false → r.error ≠ none)
        (by intro _; simp [failureRow])
        (by intro r _; simp)
      exact ⟨r, hr, hp⟩

/-- Witness for C2 amended: a plain successful scrape with no metadata, on
the empty store, returns a stored record. -/
theorem C2_amended_always_record_witness :
    ∃ r, (getOrCreateFirecrawlResponse "https://req.example" "term" plainEnv []).ret =
      some r ∧ (r.success = false → r.error ≠ none) := by
  refine C2_amended_always_record "https://req.example" "term" plainEnv []
    (fun r hr => absurd hr (by simp)) ?_
  intro res hout hs
  have hcomp : (retryWithExponentialBackoff plainEnv.attempts 3 2000
      plainEnv.jitter).outcome = Except.ok plainScrape := rfl
  rw [hcomp] at hout
  injection hout with h2
  rw [← h2]
  rfl

/-- Claim C3, counterexample: on a cache hit (a stored row with truthy
markdown) `getOrCreateFirecrawlResponse` returns the stored row immediately
and performs zero upserts, contradicting "exactly one upsert against the
persistence store on every path: cache hit, fetch success, and fetch failure
alike". -/
theorem C3_counterexample :
    (getOrCreateFirecrawlResponse "https://cached.example" "term" throttledEnv
        [cachedRow]).upserts = 0 ∧
    (getOrCreateFirecrawlResponse "https://cached.example" "term" throttledEnv
        [cachedRow]).ret = some cachedRow := by
  exact ⟨rfl, rfl⟩

/-- Claim C3, amended: every call performs exactly one upsert on each
fetch path (fetch success, scrape failure and thrown error alike), and zero
upserts on the cache-hit path, where the store is returned unchanged. -/
theorem C3_amended_upserts (url term : String) (env : FetchEnv)
    (store : List FirecrawlRow) :
    (getOrCreateFirecrawlResponse url term env store).upserts =
      (if cacheHit (findFirstByUrl store url) then 0 else 1) ∧
    (cacheHit (findFirstByUrl store url) = true →
      (getOrCreateFirecrawlResponse url term env store).store = store) := by
  by_cases h : cacheHit (findFirstByUrl store url) = true
  · rw [goc_cache_hit_eq url term env store h]
    exact ⟨by rw [if_pos h], fun _ => rfl⟩
  · rw [goc_cache_miss_eq url term env store h]
    exact ⟨by rw [if_neg h, scrapeAndStore_upserts], fun hc => absurd hc h⟩

/-- Claim C5, counterexample: a first call whose fetch succeeds and stores a
successful record with no markdown payload is not served from cache on the
second call (the cache-hit test checks markdown, not the success flag), so
the second call performs a network fetch, contradicting "a second call makes
zero network calls" for every successfully fetched key. -/
theorem C5_counterexample :
    (getOrCreateFirecrawlResponse "https://req.example" "term" noMarkdownEnv []).ret =
      some (successRow noMarkdownScrape "https://req.example" "term" 0) ∧
    (successRow noMarkdownScrape "https://req.example" "term" 0).success = true ∧
    (getOrCreateFirecrawlResponse "https://req.example" "term" noMarkdownEnv
        (getOrCreateFirecrawlResponse "https://req.example" "term"
          noMarkdownEnv []).store).fetchCalls = 1 := by
  exact ⟨rfl, rfl, rfl⟩

/-- Claim C5, amended: if the first call returned a record with truthy (non
null, non empty) markdown - in particular a successful fetch that stored its
markdown payload - then a second call for the same key is a cache hit: it
makes zero network calls, performs no writes, and returns the stored record
from the first call. -/
theorem C5_amended_cache_idempotent (url term : String) (env env2 : FetchEnv)
    (store : List FirecrawlRow) (r : FirecrawlRow)
    (h1 : (getOrCreateFirecrawlResponse url term env store).ret = some r)
    (h2 : truthyMarkdown r = true) :
    (getOrCreateFirecrawlResponse url term env2
        (getOrCreateFirecrawlResponse url term env store).store).fetchCalls = 0 ∧
    (getOrCreateFirecrawlResponse url term env2
        (getOrCreateFirecrawlResponse url term env store).store).ret = some r ∧
    (getOrCreateFirecrawlResponse url term env2
        (getOrCreateFirecrawlResponse url term env store).store).upserts = 0 := by
  have hfind : findFirstByUrl (getOrCreateFirecrawlResponse url term env store).store
      url = some r := by
    rw [← goc_ret_eq_find]
    exact h1
  have hhit : cacheHit (findFirstByUrl
      (getOrCreateFirecrawlResponse url term env store).store url) = true := by
    rw [hfind]
    exact h2
  rw [goc_cache_hit_eq url term env2 _ hhit]
  exact ⟨rfl, hfind, rfl⟩

/-- Witness for C5 amended: a successful first fetch that stored markdown is
served from cache on the second call. -/
theorem C5_amended_cache_idempotent_witness :
    (getOrCreateFirecrawlResponse "https://req.example" "term" throttledEnv
        (getOrCreateFirecrawlResponse "https://req.example" "term"
          plainEnv []).store).fetchCalls = 0 ∧
    (getOrCreateFirecrawlResponse "https://req.example" "term" throttledEnv
        (getOrCreateFirecrawlResponse "https://req.example" "term"
          plainEnv []).store).ret =
      some (successRow plainScrape "https://req.example" "term" 0) ∧
    (getOrCreateFirecrawlResponse "https://req.example" "term" throttledEnv
        (getOrCreateFirecrawlResponse "https://req.example" "term"
          plainEnv []).store).upserts = 0 := by
  exact C5_amended_cache_idempotent "https://req.example" "term" plainEnv
    throttledEnv [] (successRow plainScrape "https://req.example" "term" 0)
    (by decide) (by decide)

/-- Claim C6: when the request is not served from cache and the first fetch
attempt raises an error not classified as rate-limited, the fetch function
is invoked exactly once, no backoff wait is observed, and the caller
receives a failure record carrying the error message instead of a raised
error. -/
theorem C6_permanent_failure_single_attempt (url term : String) (env : FetchEnv)
    (store : List FirecrawlRow) (e : JsError)
    (hmiss : cacheHit (findFirstByUrl store url) = false)
    (h0 : env.attempts 0 = Except.error e)
    (hrl : isRateLimitError e = false) :
    (getOrCreateFirecrawlResponse url term env store).fetchCalls = 1 ∧
    (getOrCreateFirecrawlResponse url term env store).waits = [] ∧
    ∃ r, (getOrCreateFirecrawlResponse url term env store).ret = some r ∧
      r.success = false ∧ r.error = some (errorMessage e) := by
  have htrace : retryWithExponentialBackoff env.attempts 3 2000 env.jitter =
      { calls := 1, waits := [], outcome := Except.error e } := by
    unfold retryWithExponentialBackoff
    exact retryFrom_error_of_nonRL env.attempts 2000 env.jitter 0 3 e h0 hrl
  have hmiss2 : ¬ cacheHit (findFirstByUrl store url) = true := by
    rw [hmiss]
    exact Bool.false_ne_true
  rw [goc_cache_miss_eq url term env store hmiss2,
    scrapeAndStore_outcome_error url term env store e (by rw [htrace])]
  refine ⟨by rw [htrace], by rw [htrace], ?_⟩
  obtain ⟨r, hr, hp⟩ := findFirstByUrl_upsert store
    (failureRow url (errorMessage e) term env.now)
    (fun r => { r with error := some (errorMessage e),
                       success := false, updatedAt := env.now })
    (fun r => rfl)
    (fun r => r.success = false ∧ r.error = some (errorMessage e))
    ⟨rfl, rfl⟩
    (fun r => ⟨rfl, rfl⟩)
  exact ⟨r, hr, hp.1, hp.2⟩

/-- Witness for C6: a permanent 400 error on the empty store makes a single
attempt and stores its message. -/
theorem C6_permanent_failure_single_attempt_witness :
    (getOrCreateFirecrawlResponse "https://req.example" "term" permFailEnv
        []).fetchCalls = 1 ∧
    (getOrCreateFirecrawlResponse "https://req.example" "term" permFailEnv
        []).waits = [] ∧
    ∃ r, (getOrCreateFirecrawlResponse "https://req.example" "term" permFailEnv
        []).ret = some r ∧
      r.success = false ∧ r.error = some (errorMessage permError) := by
  exact C6_permanent_failure_single_attempt "https://req.example" "term"
    permFailEnv [] permError (by decide) rfl (by decide)

/-- Claim C7: when the stored record for a key is a failure (success flag
false and no markdown payload), re-running `getOrCreateFirecrawlResponse`
is not served from cache and invokes the network fetch at least once:
failures are never negatively cached. -/
theorem C7_no_negative_caching (url term : String) (env : FetchEnv)
    (store : List FirecrawlRow) (r : FirecrawlRow)
    (hfind : findFirstByUrl store url = some r)
    (hfail : r.success = false) (hmd : r.markdown = none) :
    1 ≤ (getOrCreateFirecrawlResponse url term env store).fetchCalls := by
  have hmiss : ¬ cacheHit (findFirstByUrl store url) = true := by
    rw [hfind]
    simp [cacheHit, truthyMarkdown, hmd]
  rw [goc_cache_miss_eq url term env store hmiss, scrapeAndStore_fetchCalls]
  exact retryFrom_calls_pos env.attempts 2000 env.jitter 3 0

/-- Witness for C7: a stored failure record is re-fetched. -/
theorem C7_no_negative_caching_witness :
    1 ≤ (getOrCreateFirecrawlResponse "https://failed.example" "term" plainEnv
        [storedFailureRow]).fetchCalls := by
  exact C7_no_negative_caching "https://failed.example" "term" plainEnv
    [storedFailureRow] storedFailureRow (by decide) rfl rfl

/-- Claim C8: the sequential batch coordinator returns one result per input
request (a list of exactly the input length, produced in input order by the
threaded sequential loop), never raises when individual items fail (it is a
total function into results tagged by their success flag), and computes the
aggregate summary counts: successCount is the number of results whose
success flag is truthy and errorCount is the rest, so they add up to the
number of requests. -/
theorem C8_batch_length_and_counts (envs : Nat → FetchEnv)
    (requests : List (String × String)) (store : List FirecrawlRow) :
    (getOrCreateFirecrawlResponsesSequentially envs requests store).results.length =
      requests.length ∧
    (getOrCreateFirecrawlResponsesSequentially envs requests store).successCount =
      ((getOrCreateFirecrawlResponsesSequentially envs requests
        store).results.filter truthySuccess).length ∧
    (getOrCreateFirecrawlResponsesSequentially envs requests store).successCount +
      (getOrCreateFirecrawlResponsesSequentially envs requests store).errorCount =
      requests.length := by
  refine ⟨runSequentially_length envs requests 0 store, rfl, ?_⟩
  have hle : ((runSequentially envs requests 0 store).1.filter truthySuccess).length ≤
      (runSequentially envs requests 0 store).1.length :=
    List.length_filter_le _ _
  have hlen := runSequentially_length envs requests 0 store
  show ((runSequentially envs requests 0 store).1.filter truthySuccess).length +
      ((runSequentially envs requests 0 store).1.length -
        ((runSequentially envs requests 0 store).1.filter truthySuccess).length) =
      requests.length
  omega

/-- Claim C9: every sequence of fetch-or-create operations preserves the
invariant that the store holds at most one row per key: the upserts create a
row on the first attempt for a key and update that row in place afterwards,
and never produce a second row for the same key. -/
theorem C9_at_most_one_row_per_key (envs : Nat → FetchEnv)
    (requests : List (String × String)) (store : List FirecrawlRow)
    (hinv : atMostOnePerKey store) :
    atMostOnePerKey (getOrCreateFirecrawlResponsesSequentially envs requests
      store).store := by
  exact runSequentially_store_inv envs requests 0 store hinv

/-- Witness for C9: two operations on the same key starting from the empty
store leave at most one row per key. -/
theorem C9_at_most_one_row_per_key_witness :
    atMostOnePerKey (getOrCreateFirecrawlResponsesSequentially (fun _ => plainEnv)
      [("https://req.example", "term"), ("https://req.example", "term")] []).store := by
  exact C9_at_most_one_row_per_key (fun _ => plainEnv)
    [("https://req.example", "term"), ("https://req.example", "term")] []
    (fun key => by simp)

/-- Claim C10: for every input term and every combination of internal
failures, `getOrCreateKeywordsFromHeaders` never throws (it is a total
function into keyword lists) and always returns an array, according to the
case mapping of the claim: the existing stored keywords exactly on a cache
hit; the empty array exactly when extraction is impossible (no stored
responses, no valid markdown, no extractable H2 headers, empty context, a
failed LLM call, or an empty LLM result); the in-memory keyword objects when
keywords were extracted but only persistence fails; and the stored keywords
when extraction and persistence both succeed.  Each disjunct carries the
condition that selects it, so for every environment the branch taken is the
one the claim prescribes. -/
theorem C10_keywords_never_throw (term : String) (env : KeywordsEnv) :
    (0 < env.existingHeaderKeywords.length ∧
      getOrCreateKeywordsFromHeaders term env = env.existingHeaderKeywords) ∨
    (env.existingHeaderKeywords.length = 0 ∧ extractionImpossible env ∧
      getOrCreateKeywordsFromHeaders term env = []) ∨
    (env.existingHeaderKeywords.length = 0 ∧ ¬ extractionImpossible env ∧
      ∃ kws e, env.llmResult = Except.ok kws ∧ 0 < kws.length ∧
        env.insertResult = Except.error e ∧
        getOrCreateKeywordsFromHeaders term env = tempKeywords term kws env.now) ∨
    (env.existingHeaderKeywords.length = 0 ∧ ¬ extractionImpossible env ∧
      ∃ kws u, env.llmResult = Except.ok kws ∧ 0 < kws.length ∧
        env.insertResult = Except.ok u ∧
        getOrCreateKeywordsFromHeaders term env = env.storedKeywords) := by
  simp only [getOrCreateKeywordsFromHeaders]
  by_cases h1 : 0 < env.existingHeaderKeywords.length
  · rw [if_pos h1]
    exact Or.inl ⟨h1, rfl⟩
  · rw [if_neg h1]
    have h1z : env.existingHeaderKeywords.length = 0 := Nat.eq_zero_of_not_pos h1
    by_cases h2 : env.firecrawlResults.length = 0
    · rw [if_pos h2]
      exact Or.inr (Or.inl ⟨h1z, Or.inl h2, rfl⟩)
    · rw [if_neg h2]
      by_cases h3 : (env.firecrawlResults.filter hasValidMarkdown).length = 0
      · rw [if_pos h3]
        exact Or.inr (Or.inl ⟨h1z, Or.inr (Or.inl h3), rfl⟩)
      · rw [if_neg h3]
        by_cases h4 : ((env.firecrawlResults.filter hasValidMarkdown).filter
            (fun r => !(extractH2Headers (r.markdown.getD "")).isEmpty)).length = 0
        · rw [if_pos h4]
          exact Or.inr (Or.inl ⟨h1z, Or.inr (Or.inr (Or.inl h4)), rfl⟩)
        · rw [if_neg h4]
          by_cases h5 : (String.intercalate ";"
              ((((env.firecrawlResults.filter hasValidMarkdown).filter
                (fun r => !(extractH2Headers (r.markdown.getD "")).isEmpty)).map
                  contextPart).filter (fun c => 0 < c.length))).length = 0
          · rw [if_pos h5]
            exact Or.inr (Or.inl ⟨h1z, Or.inr (Or.inr (Or.inr (Or.inl h5))), rfl⟩)
          · rw [if_neg h5]
            cases hllm : env.llmResult with
            | error eL =>
              dsimp only
              exact Or.inr (Or.inl ⟨h1z,
                Or.inr (Or.inr (Or.inr (Or.inr (Or.inl ⟨eL, hllm⟩)))), rfl⟩)
            | ok kws =>
              dsimp only
              by_cases h6 : kws.length = 0
              · rw [if_pos h6]
                exact Or.inr (Or.inl ⟨h1z,
                  Or.inr (Or.inr (Or.inr (Or.inr (Or.inr ⟨kws, hllm, h6⟩)))), rfl⟩)
              · rw [if_neg h6]
                have hposs : ¬ extractionImpossible env := by
                  intro hblock
                  rcases hblock with hb | hb | hb | hb | ⟨e2, hb⟩ | ⟨kws2, hb, hb2⟩
                  · exact h2 hb
                  · exact h3 hb
                  · exact h4 hb
                  · exact h5 hb
                  · rw [hllm] at hb
                    cases hb
                  · rw [hllm] at hb
                    injection hb with hb3
                    rw [← hb3] at hb2
                    exact h6 hb2
                cases hins : env.insertResult with
                | error eI =>
                  dsimp only
                  exact Or.inr (Or.inr (Or.inl ⟨h1z, hposs,
                    kws, eI, rfl, Nat.pos_of_ne_zero h6, rfl, rfl⟩))
                | ok u =>
                  dsimp only
                  exact Or.inr (Or.inr (Or.inr ⟨h1z, hposs,
                    kws, u, rfl, Nat.pos_of_ne_zero h6, rfl, rfl⟩))
